import Mathlib

/-!
Verification of the DAVE hybrid retrieval core
(`backend/qavectorizer/src/vector_search.py`, class `VectorSearch`).

The search engine, the embedding model, the tokenizer, the retriever and the
two chunk-rank collectors (`utils.collect_chunk_ranks`,
`utils.collect_chunk_ranks_full_text`) are external collaborators of the core;
they are modelled as an `Env` of abstract functions, exactly as the spec
treats them (interfaces only).  Everything of `VectorSearch.search`,
`_build_queries`, the four query builders and `_prepare_results` is embedded
below, clause by clause.  Python floats are modelled by `ℚ`; the
`float("inf")` rank of a chunk missing from one rank map is modelled by the
`Option Nat` rank whose RRF term is `0`, which is the exact value
`1 / (rrf_k + inf)` evaluates to in the source.  Python's stable
`sorted(..., reverse=True)` is modelled by Mathlib's stable `insertionSort`
with the reversed (`≥` on scores) relation, which computes the same list.
-/

namespace DAVE

/-- Chunk identity as produced by the rank collectors: the tuple
`(doc_id, chunk_text, chunk_text_anonymized)` unpacked at
`vector_search.py` lines 213-215 and 253-256. -/
structure ChunkId where
  docId : String
  text : String
  textAnonymized : String
deriving DecidableEq

/-- A rank map (`vector_ranks` / `full_text_ranks`): chunk identity to
1-based integer rank, as an association list. -/
abbrev RankMap := List (ChunkId × Nat)

/-- Dictionary lookup `m.get(chunk_id)` on a rank map. -/
def lookupRank : RankMap → ChunkId → Option Nat
  | [], _ => none
  | (k, v) :: rest, c => if k = c then some v else lookupRank rest c

/-- One RRF summand `1 / (rrf_k + rank)`; a missing rank is
`float("inf")` in the source, and its summand evaluates to `0`. -/
def rrfTerm (rrf_k : Nat) : Option Nat → ℚ
  | some r => 1 / ((rrf_k : ℚ) + (r : ℚ))
  | none => 0

/-- The combined RRF score of a chunk
(`vector_search.py` lines 195-199). -/
def rrfScore (rrf_k : Nat) (vector_ranks full_text_ranks : RankMap) (c : ChunkId) : ℚ :=
  rrfTerm rrf_k (lookupRank vector_ranks c) + rrfTerm rrf_k (lookupRank full_text_ranks c)

/-- `all_chunk_ids = set(vector_ranks.keys()).union(full_text_ranks.keys())`
(line 192), as a duplicate-free list. -/
def allChunkIds (vector_ranks full_text_ranks : RankMap) : List ChunkId :=
  ((vector_ranks.map Prod.fst) ++ (full_text_ranks.map Prod.fst)).dedup

/-- Descending comparison on the score component, the sort relation of
`sorted(combined_scores.items(), key=lambda x: x[1], reverse=True)`. -/
def scoreGe (a b : ChunkId × ℚ) : Prop := b.2 ≤ a.2

instance : DecidableRel scoreGe := fun a b => inferInstanceAs (Decidable (b.2 ≤ a.2))

/-- `final_ranking` (lines 191-203): score every chunk of the union and sort
by descending score (stable, like Python's `sorted`). -/
def fuse (rrf_k : Nat) (vector_ranks full_text_ranks : RankMap) : List (ChunkId × ℚ) :=
  ((allChunkIds vector_ranks full_text_ranks).map
      (fun c => (c, rrfScore rrf_k vector_ranks full_text_ranks c))).insertionSort scoreGe

/-- The `metadata` object of a selected chunk record. -/
structure ChunkMeta where
  doc_id : String
  chunk_size : Nat
deriving DecidableEq

/-- A chunk record (`temp_chunk` at lines 216-221, 257-262 and 528-535).
`text_anonymized` is absent (`none`) in the whole-document pseudo-chunk of
`_prepare_results`, which builds a dict without that key. -/
structure ChunkRecord where
  id : String
  text : String
  text_anonymized : Option String
  metadata : ChunkMeta
deriving DecidableEq

/-- The `temp_chunk` dict built from a chunk identity (lines 216-221):
note the record's `id` field holds the document id, as in the source. -/
def mkChunkRecord (c : ChunkId) : ChunkRecord :=
  { id := c.docId
    text := c.text
    text_anonymized := some c.textAnonymized
    metadata := { doc_id := c.docId, chunk_size := c.text.length } }

/-- `doc_chunks_id_map`: document id to its ordered chunk records, as an
insertion-ordered association list (a Python dict). -/
abbrev DocMap := List (String × List ChunkRecord)

/-- The `if key in dict: dict[key].append(v) else: dict[key] = [v]` pattern
used at lines 222-225, 228-232 and 263-266, on an insertion-ordered
association list (a Python dict of lists). -/
def dictAppend {α β : Type} [DecidableEq α] :
    List (α × List β) → α → β → List (α × List β)
  | [], d, c => [(d, [c])]
  | (k, cs) :: rest, d, c =>
      if k = d then (k, cs ++ [c]) :: rest else (k, cs) :: dictAppend rest d c

/-- Dictionary read `dict[d]`, with `[]` for a missing key. -/
def dictGet {α β : Type} [DecidableEq α] : List (α × List β) → α → List β
  | [], _ => []
  | (k, cs) :: rest, d => if k = d then cs else dictGet rest d

/-- Dictionary read `doc_chunks_id_map[d]`. -/
def chunksAt (doc_chunks_id_map : DocMap) (d : String) : List ChunkRecord :=
  dictGet doc_chunks_id_map d

/-- Single-document gathering (lines 209-225): take the top
`chunks_to_gather` entries of the fused ranking and group them by doc id. -/
def gatherSingle (final_ranking : List (ChunkId × ℚ)) (chunks_to_gather : Nat) : DocMap :=
  (final_ranking.take chunks_to_gather).foldl
    (fun m p => dictAppend m p.1.docId (mkChunkRecord p.1)) []

/-- `doc_chunk_scores` (lines 228-232): `defaultdict(list)` accumulation of
`(score, chunk_id)` pairs per doc id, preserving first-seen key order. -/
def groupByDoc (final_ranking : List (ChunkId × ℚ)) : List (String × List (ℚ × ChunkId)) :=
  final_ranking.foldl (fun m p => dictAppend m p.1.docId (p.2, p.1)) []

/-- `max(s for s, _ in chunks)` over a document's scored chunks
(line 237); groups built by `groupByDoc` are never empty. -/
def maxScore (ps : List (ℚ × ChunkId)) : ℚ :=
  ((ps.map Prod.fst).max?).getD 0

/-- Descending comparison of documents by their best chunk score
(`sorted(..., key=lambda x: max(...), reverse=True)`, lines 235-239). -/
def docGe (a b : String × List (ℚ × ChunkId)) : Prop := maxScore b.2 ≤ maxScore a.2

instance : DecidableRel docGe := fun a b =>
  inferInstanceAs (Decidable (maxScore b.2 ≤ maxScore a.2))

/-- Descending comparison of `(score, chunk_id)` pairs by score
(`sorted(chunks, key=lambda x: x[0], reverse=True)`, line 246). -/
def chunkGe (a b : ℚ × ChunkId) : Prop := b.1 ≤ a.1

instance : DecidableRel chunkGe := fun a b => inferInstanceAs (Decidable (b.1 ≤ a.1))

/-- `selected_chunks` (lines 242-249): top 5 documents, and from each its
top 5 chunks by score, concatenated by the loop's `extend`. -/
def selectedChunks (sorted_docs : List (String × List (ℚ × ChunkId))) : List (ℚ × ChunkId) :=
  (sorted_docs.take 5).foldl (fun acc g => acc ++ (g.2.insertionSort chunkGe).take 5) []

/-- Build `doc_chunks_id_map` from `selected_chunks` (lines 252-266). -/
def buildDocMap (selected : List (ℚ × ChunkId)) : DocMap :=
  selected.foldl (fun m p => dictAppend m p.2.docId (mkChunkRecord p.2)) []

/-- Multi-document gathering (lines 227-266): group the entire fused
ranking by document, order documents by best chunk, cap at 5 documents of
5 chunks each. -/
def gatherMulti (final_ranking : List (ChunkId × ℚ)) : DocMap :=
  buildDocMap (selectedChunks ((groupByDoc final_ranking).insertionSort docGe))

/-- A full document record as returned by the retriever collaborator
(only the fields this core reads). -/
structure Doc where
  id : String
  text : String
deriving DecidableEq

/-- One element of the response list (`doc_results` entries). -/
structure ResultRecord where
  doc : Doc
  chunks : List ChunkRecord
  full_docs : Bool
deriving DecidableEq

/-- Python truthiness of `filter_ids and len(filter_ids) == 1`
(lines 123, 189, 209, 506). -/
def singleMode : Option (List String) → Bool
  | none => false
  | some l => l.length == 1

/-- Python truthiness of `filter_ids and len(filter_ids) > 0` (line 316). -/
def isFiltered : Option (List String) → Bool
  | none => false
  | some l => !l.isEmpty

/-- Number of supplied filter ids (`len(filter_ids)` with `None ↦ 0`). -/
def numFilter (filter_ids : Option (List String)) : Nat :=
  (filter_ids.getD []).length

/-- The adaptive sizing of lines 122-136:
`(knn_k, chunks_to_gather, inner_hits_size)`. -/
def searchParams (filter_ids : Option (List String)) : Nat × Nat × Nat :=
  if singleMode filter_ids then (50, 40, 50) else (25, 25, 30)

/-- The adaptive RRF constant of line 189. -/
def rrfK (filter_ids : Option (List String)) : Nat :=
  if singleMode filter_ids then 50 else 30

/-- JSON values, for the literal Elasticsearch query bodies the builders
construct. -/
inductive Json where
  | bool (b : Bool) : Json
  | num (q : ℚ) : Json
  | str (s : String) : Json
  | arr (items : List Json) : Json
  | obj (fields : List (String × Json)) : Json

/-- The `should_query` clause list of `_build_queries` (lines 307-314):
`hibrid_no_ner` drops the entity-name match. -/
def shouldQuery (query : String) (retrieval_method : String) : List Json :=
  if retrieval_method == "hibrid_no_ner" then
    [Json.obj [("match", Json.obj [("chunks.vectors.text", Json.str query)])]]
  else
    [Json.obj [("match", Json.obj [("chunks.vectors.text", Json.str query)])],
     Json.obj [("match", Json.obj [("chunks.vectors.entities", Json.str query)])]]

/-- The shared `inner_hits` request body. -/
def innerHits (size : Nat) : Json :=
  Json.obj
    [("_source", Json.bool false),
     ("fields", Json.arr
        [Json.str "chunks.vectors.text", Json.str "chunks.vectors.text_anonymized",
         Json.str "_score"]),
     ("size", Json.num (size : ℚ))]

/-- `_build_filtered_knn_query` (lines 333-370); Python's `if collection_id:`
is false for `None` and for the empty string. -/
def build_filtered_knn_query (embeddings : List ℚ) (filter_ids : List String)
    (collection_id : Option String) (knn_k : Nat) : Json :=
  let terms_filter := Json.obj [("terms", Json.obj [("id", Json.arr (filter_ids.map Json.str))])]
  let knn_filter :=
    match collection_id with
    | some cid =>
        if cid.isEmpty then terms_filter
        else
          Json.obj [("bool", Json.obj [("must", Json.arr
            [terms_filter,
             Json.obj [("term", Json.obj [("collectionId.keyword", Json.str cid)])]])])]
    | none => terms_filter
  Json.obj [("knn", Json.obj
    [("inner_hits", innerHits knn_k),
     ("field", Json.str "chunks.vectors.predicted_value"),
     ("query_vector", Json.arr (embeddings.map Json.num)),
     ("k", Json.num (knn_k : ℚ)),
     ("num_candidates", Json.num 1000),
     ("filter", knn_filter)])]

/-- `_build_global_knn_query` (lines 372-397). -/
def build_global_knn_query (embeddings : List ℚ) (collection_id : Option String)
    (knn_k : Nat) : Json :=
  let knn_core :=
    [("inner_hits", innerHits knn_k),
     ("field", Json.str "chunks.vectors.predicted_value"),
     ("query_vector", Json.arr (embeddings.map Json.num)),
     ("k", Json.num (knn_k : ℚ))]
  match collection_id with
  | some cid =>
      if cid.isEmpty then
        Json.obj [("_source", Json.arr [Json.str "id"]), ("knn", Json.obj knn_core)]
      else
        Json.obj [("_source", Json.arr [Json.str "id"]),
          ("knn", Json.obj (knn_core ++
            [("filter", Json.obj
               [("term", Json.obj [("collectionId.keyword", Json.str cid)])])]))]
  | none => Json.obj [("_source", Json.arr [Json.str "id"]), ("knn", Json.obj knn_core)]

/-- `_build_filtered_fulltext_query` (lines 399-438). -/
def build_filtered_fulltext_query (query : String) (should_q : List Json)
    (filter_ids : List String) (collection_id : Option String)
    (inner_hits_size : Nat) : Json :=
  let terms_filter := Json.obj [("terms", Json.obj [("id", Json.arr (filter_ids.map Json.str))])]
  let filter_list :=
    match collection_id with
    | some cid =>
        if cid.isEmpty then Json.arr [terms_filter]
        else
          Json.arr [terms_filter,
            Json.obj [("term", Json.obj [("collectionId.keyword", Json.str cid)])]]
    | none => Json.arr [terms_filter]
  Json.obj [("_source", Json.arr [Json.str "id"]),
    ("query", Json.obj [("bool", Json.obj
      [("filter", filter_list),
       ("must", Json.obj [("nested", Json.obj
         [("path", Json.str "chunks.vectors"),
          ("query", Json.obj [("bool", Json.obj [("should", Json.arr should_q)])]),
          ("inner_hits", innerHits inner_hits_size)])])])])]

/-- `_build_global_fulltext_query` (lines 440-475). -/
def build_global_fulltext_query (query : String) (should_q : List Json)
    (collection_id : Option String) (inner_hits_size : Nat) : Json :=
  let nested := Json.obj [("nested", Json.obj
    [("path", Json.str "chunks.vectors"),
     ("query", Json.obj [("bool", Json.obj [("should", Json.arr should_q)])]),
     ("inner_hits", innerHits inner_hits_size)])]
  match collection_id with
  | some cid =>
      if cid.isEmpty then
        Json.obj [("_source", Json.arr [Json.str "id"]), ("query", nested)]
      else
        Json.obj [("_source", Json.arr [Json.str "id"]),
          ("query", Json.obj [("bool", Json.obj
            [("filter", Json.arr
               [Json.obj [("term", Json.obj [("collectionId.keyword", Json.str cid)])]]),
             ("must", nested)])])]
  | none => Json.obj [("_source", Json.arr [Json.str "id"]), ("query", nested)]

/-- `_build_queries` (lines 295-331): pick the filtered or global pair of
query bodies. -/
def build_queries (query : String) (embeddings : List ℚ) (retrieval_method : String)
    (filter_ids : Option (List String)) (collection_id : Option String)
    (knn_k inner_hits_size : Nat) : Json × Json :=
  let sq := shouldQuery query retrieval_method
  if isFiltered filter_ids then
    (build_filtered_knn_query embeddings (filter_ids.getD []) collection_id knn_k,
     build_filtered_fulltext_query query sq (filter_ids.getD []) collection_id inner_hits_size)
  else
    (build_global_knn_query embeddings collection_id knn_k,
     build_global_fulltext_query query sq collection_id inner_hits_size)

/-- Prefix test on character lists (`needle` starts `hay`). -/
def listPre : List Char → List Char → Bool
  | [], _ => true
  | _ :: _, [] => false
  | a :: as, b :: bs => a == b && listPre as bs

/-- Substring test on character lists, for Python's `needle in hay`. -/
def listSub (needle : List Char) : List Char → Bool
  | [] => listPre needle []
  | l@(_ :: rest) => listPre needle l || listSub needle rest

/-- `full_docs_keywords` (line 489). -/
def full_docs_keywords : List String := ["estrai", "riassumi"]

/-- `any(keyword in query.lower() for keyword in full_docs_keywords)`
(line 490); `query.lower()` modelled character-wise by `Char.toLower`. -/
def containsKeyword (query : String) : Bool :=
  full_docs_keywords.any (fun kw => listSub kw.toList (query.toList.map Char.toLower))

/-- The whole-document pseudo-chunk of the keyword path (lines 528-535);
its dict has no `text_anonymized` key. -/
def pseudoChunk (d : Doc) : ChunkRecord :=
  { id := d.id
    text := d.text
    text_anonymized := none
    metadata := { doc_id := d.id, chunk_size := d.text.length } }

/-- A chunk-based result record
`{"doc": doc, "chunks": map[doc["id"]], "full_docs": False}`. -/
def chunkResult (doc_chunks_id_map : DocMap) (d : Doc) : ResultRecord :=
  { doc := d, chunks := chunksAt doc_chunks_id_map d.id, full_docs := false }

/-- The tail of `_prepare_results` after the force and single-document
branches (lines 521-551): the keyword heuristic with its 18000-token sum
budget, then the chunked default. -/
def prepareTail (tokenLen : String → Nat) (full_docs : List Doc)
    (doc_chunks_id_map : DocMap) (full_docs_flag : Bool) : List ResultRecord :=
  if full_docs_flag && (full_docs.map (fun d => tokenLen d.text)).sum ≤ 18000 then
    full_docs.map (fun d => { doc := d, chunks := [pseudoChunk d], full_docs := true })
  else
    full_docs.map (chunkResult doc_chunks_id_map)

/-- `_prepare_results` (lines 477-551).  `tokenLen` is
`len(self.tokenizer.tokenize(·))`. -/
def prepare_results (tokenLen : String → Nat) (full_docs : List Doc)
    (doc_chunks_id_map : DocMap) (query : String)
    (filter_ids : Option (List String)) (force_rag : Bool) : List ResultRecord :=
  if force_rag then
    full_docs.map (chunkResult doc_chunks_id_map)
  else
    match full_docs, singleMode filter_ids with
    | d0 :: rest, true =>
        if tokenLen d0.text < 18000 then
          [chunkResult doc_chunks_id_map d0]
        else
          prepareTail tokenLen (d0 :: rest) doc_chunks_id_map (containsKeyword query)
    | fd, _ => prepareTail tokenLen fd doc_chunks_id_map (containsKeyword query)

/-- The external collaborators of `VectorSearch` as abstract functions:
the embedding model (`model.encode(query).tolist()`), the composition of
each Elasticsearch query with its rank collector, the per-collection
document retriever (`none` models an `{"error": ...}` response), and the
tokenizer's token count. -/
structure Env where
  embed : String → List ℚ
  vectorRanksOf : Json → RankMap
  fullTextRanksOf : Json → RankMap
  retrieve : String → Option Doc
  tokenLen : String → Nat

/-- The retrieval methods that execute the vector query (line 155). -/
def vector_methods : List String := ["full", "dense", "hibrid_no_ner"]

/-- The retrieval methods that execute the full-text query (line 164). -/
def fulltext_methods : List String := ["full", "hibrid_no_ner", "full-text"]

/-- The pair of query bodies built by `search` (lines 139-147). -/
def queriesOf (env : Env) (query retrieval_method : String)
    (filter_ids : Option (List String)) (collection_id : Option String) : Json × Json :=
  build_queries query (env.embed query) retrieval_method filter_ids collection_id
    (searchParams filter_ids).1 (searchParams filter_ids).2.2

/-- `vector_ranks` (lines 152-162, 180): the rank map is empty unless the
retrieval method executes the vector query. -/
def vectorRanksUsed (env : Env) (query retrieval_method : String)
    (filter_ids : Option (List String)) (collection_id : Option String) : RankMap :=
  if retrieval_method ∈ vector_methods then
    env.vectorRanksOf (queriesOf env query retrieval_method filter_ids collection_id).1
  else []

/-- `full_text_ranks` (lines 164-175, 182-186). -/
def fullTextRanksUsed (env : Env) (query retrieval_method : String)
    (filter_ids : Option (List String)) (collection_id : Option String) : RankMap :=
  if retrieval_method ∈ fulltext_methods then
    env.fullTextRanksOf (queriesOf env query retrieval_method filter_ids collection_id).2
  else []

/-- `final_ranking` of a request (lines 189-203). -/
def fusedRankingOf (env : Env) (query retrieval_method : String)
    (filter_ids : Option (List String)) (collection_id : Option String) :
    List (ChunkId × ℚ) :=
  fuse (rrfK filter_ids)
    (vectorRanksUsed env query retrieval_method filter_ids collection_id)
    (fullTextRanksUsed env query retrieval_method filter_ids collection_id)

/-- `doc_chunks_id_map` of a request (lines 208-266). -/
def docMapOf (env : Env) (query retrieval_method : String)
    (filter_ids : Option (List String)) (collection_id : Option String) : DocMap :=
  if singleMode filter_ids then
    gatherSingle (fusedRankingOf env query retrieval_method filter_ids collection_id)
      (searchParams filter_ids).2.1
  else
    gatherMulti (fusedRankingOf env query retrieval_method filter_ids collection_id)

/-- The retriever loop (lines 277-283): retrieve each document id in map
order, dropping the ids whose retrieval reports an error. -/
def retrieveDocs (retrieve : String → Option Doc) (doc_ids : List String) : List Doc :=
  doc_ids.filterMap retrieve

/-- `VectorSearch.search` (lines 88-293): embed, build and run both
queries, fuse by RRF, gather chunks, retrieve full documents, and shape
the response with `_prepare_results`. -/
def search (env : Env) (query retrieval_method : String)
    (filter_ids : Option (List String)) (collection_id : Option String)
    (force_rag : Bool) : List ResultRecord :=
  prepare_results env.tokenLen
    (retrieveDocs env.retrieve
      ((docMapOf env query retrieval_method filter_ids collection_id).map Prod.fst))
    (docMapOf env query retrieval_method filter_ids collection_id)
    query filter_ids force_rag

/-! ### Basic lemmas about the embedded definitions -/

lemma singleMode_eq_true_iff (fi : Option (List String)) :
    singleMode fi = true ↔ numFilter fi = 1 := by
  cases fi <;> simp [singleMode, numFilter]

lemma singleMode_eq_false_iff (fi : Option (List String)) :
    singleMode fi = false ↔ numFilter fi ≠ 1 := by
  have h := singleMode_eq_true_iff fi
  cases hs : singleMode fi <;> simp_all

section Dict

variable {α β : Type} [DecidableEq α]

lemma dictGet_dictAppend (m : List (α × List β)) (d : α) (c : β) (d' : α) :
    dictGet (dictAppend m d c) d' =
      if d = d' then dictGet m d' ++ [c] else dictGet m d' := by
  induction m with
  | nil =>
      by_cases h : d = d' <;> simp [dictAppend, dictGet, h]
  | cons kv rest ih =>
      obtain ⟨k, cs⟩ := kv
      by_cases hk : k = d
      · subst hk
        by_cases h : k = d' <;> simp [dictAppend, dictGet, h]
      · by_cases h : k = d'
        · subst h
          have hd : ¬ d = k := fun hdk => hk hdk.symm
          simp [dictAppend, dictGet, hk, hd]
        · simp [dictAppend, dictGet, hk, h, ih]

lemma dictAppend_keys (m : List (α × List β)) (d : α) (c : β) :
    (dictAppend m d c).map Prod.fst =
      if d ∈ m.map Prod.fst then m.map Prod.fst else m.map Prod.fst ++ [d] := by
  induction m with
  | nil => simp [dictAppend]
  | cons kv rest ih =>
      obtain ⟨k, cs⟩ := kv
      by_cases hk : k = d
      · subst hk
        simp [dictAppend]
      · have hd : ¬ d = k := fun hdk => hk hdk.symm
        by_cases hmem : d ∈ rest.map Prod.fst <;>
          simp [dictAppend, hk, hd, hmem, ih]

lemma dictAppend_keys_nodup (m : List (α × List β)) (d : α) (c : β)
    (h : (m.map Prod.fst).Nodup) : ((dictAppend m d c).map Prod.fst).Nodup := by
  rw [dictAppend_keys]
  split
  · exact h
  · next hmem => simp [List.nodup_append, h, hmem]

lemma dictAppend_val_inv {P : β → α → Prop} (m : List (α × List β)) (d : α) (c : β)
    (hm : ∀ g ∈ m, ∀ b ∈ g.2, P b g.1) (hc : P c d) :
    ∀ g ∈ dictAppend m d c, ∀ b ∈ g.2, P b g.1 := by
  induction m with
  | nil =>
      intro g hg b hb
      simp [dictAppend] at hg
      subst hg
      simp at hb
      subst hb
      exact hc
  | cons kv rest ih =>
      obtain ⟨k, cs⟩ := kv
      by_cases hk : k = d
      · subst hk
        intro g hg b hb
        simp [dictAppend] at hg
        rcases hg with hg | hg
        · subst hg
          simp at hb
          rcases hb with hb | hb
          · exact hm (k, cs) (by simp) b hb
          · subst hb; exact hc
        · exact hm g (by simp [hg]) b hb
      · intro g hg b hb
        simp [dictAppend, hk] at hg
        rcases hg with hg | hg
        · subst hg
          exact hm (k, cs) (by simp) b hb
        · exact ih (fun g' hg' => hm g' (by simp [hg'])) g hg b hb

variable {γ : Type}

lemma foldl_dictAppend_get_length (key : γ → α) (val : γ → β) (l : List γ)
    (m : List (α × List β)) (d : α) :
    (dictGet (l.foldl (fun acc x => dictAppend acc (key x) (val x)) m) d).length =
      (dictGet m d).length + l.countP (fun x => decide (key x = d)) := by
  induction l generalizing m with
  | nil => simp
  | cons x xs ih =>
      rw [List.foldl_cons, ih, dictGet_dictAppend]
      by_cases h : key x = d <;> simp [h, List.countP_cons] <;> omega

lemma foldl_dictAppend_keys_nodup (key : γ → α) (val : γ → β) (l : List γ)
    (m : List (α × List β)) (h : (m.map Prod.fst).Nodup) :
    ((l.foldl (fun acc x => dictAppend acc (key x) (val x)) m).map Prod.fst).Nodup := by
  induction l generalizing m with
  | nil => exact h
  | cons x xs ih => exact ih _ (dictAppend_keys_nodup _ _ _ h)

lemma foldl_dictAppend_keys_subset (key : γ → α) (val : γ → β) (l : List γ)
    (m : List (α × List β)) :
    ∀ k ∈ (l.foldl (fun acc x => dictAppend acc (key x) (val x)) m).map Prod.fst,
      k ∈ m.map Prod.fst ∨ k ∈ l.map key := by
  induction l generalizing m with
  | nil => intro k hk; exact Or.inl hk
  | cons x xs ih =>
      intro k hk
      rcases ih _ _ hk with hk' | hk'
      · rw [dictAppend_keys] at hk'
        split at hk'
        · exact Or.inl hk'
        · rcases List.mem_append.mp hk' with hk'' | hk''
          · exact Or.inl hk''
          · rw [List.mem_singleton] at hk''
            subst hk''
            exact Or.inr (by simp)
      · exact Or.inr (by simp [hk'])

lemma foldl_dictAppend_get_mem (key : γ → α) (val : γ → β) (l : List γ)
    (m : List (α × List β)) (d : α) (b : β)
    (hb : b ∈ dictGet (l.foldl (fun acc x => dictAppend acc (key x) (val x)) m) d) :
    b ∈ dictGet m d ∨ ∃ x ∈ l, b = val x := by
  induction l generalizing m with
  | nil => exact Or.inl hb
  | cons x xs ih =>
      rw [List.foldl_cons] at hb
      rcases ih (dictAppend m (key x) (val x)) hb with h | h
      · rw [dictGet_dictAppend] at h
        by_cases hk : key x = d
        · rw [if_pos hk] at h
          rcases List.mem_append.mp h with h' | h'
          · exact Or.inl h'
          · exact Or.inr ⟨x, by simp, List.mem_singleton.mp h'⟩
        · rw [if_neg hk] at h
          exact Or.inl h
      · obtain ⟨y, hy, hby⟩ := h
        exact Or.inr ⟨y, by simp [hy], hby⟩

lemma foldl_dictAppend_val_inv {P : β → α → Prop} (key : γ → α) (val : γ → β)
    (l : List γ) (m : List (α × List β))
    (hm : ∀ g ∈ m, ∀ b ∈ g.2, P b g.1) (hl : ∀ x ∈ l, P (val x) (key x)) :
    ∀ g ∈ l.foldl (fun acc x => dictAppend acc (key x) (val x)) m,
      ∀ b ∈ g.2, P b g.1 := by
  induction l generalizing m with
  | nil => exact hm
  | cons x xs ih =>
      exact ih _ (dictAppend_val_inv _ _ _ hm (hl x (by simp)))
        (fun y hy => hl y (by simp [hy]))

end Dict

/-! ### Lemmas about `_prepare_results` -/

lemma prepareTail_length (tokenLen : String → Nat) (full_docs : List Doc)
    (doc_chunks_id_map : DocMap) (flag : Bool) :
    (prepareTail tokenLen full_docs doc_chunks_id_map flag).length = full_docs.length := by
  unfold prepareTail
  split <;> simp

lemma prepare_results_nil (tokenLen : String → Nat) (doc_chunks_id_map : DocMap)
    (query : String) (filter_ids : Option (List String)) (force_rag : Bool) :
    prepare_results tokenLen [] doc_chunks_id_map query filter_ids force_rag = [] := by
  unfold prepare_results
  cases force_rag
  · cases hsm : singleMode filter_ids <;> simp [prepareTail]
  · simp

lemma prepare_results_length_not_single (tokenLen : String → Nat) (full_docs : List Doc)
    (doc_chunks_id_map : DocMap) (query : String) (filter_ids : Option (List String))
    (force_rag : Bool) (h : singleMode filter_ids = false) :
    (prepare_results tokenLen full_docs doc_chunks_id_map query filter_ids
      force_rag).length = full_docs.length := by
  unfold prepare_results
  rw [h]
  cases force_rag
  · cases full_docs <;> simp [prepareTail_length]
  · simp

lemma prepare_results_filter_congr (tokenLen : String → Nat) (full_docs : List Doc)
    (doc_chunks_id_map : DocMap) (query : String) (fi fi' : Option (List String))
    (force_rag : Bool) (h : singleMode fi = singleMode fi') :
    prepare_results tokenLen full_docs doc_chunks_id_map query fi force_rag =
      prepare_results tokenLen full_docs doc_chunks_id_map query fi' force_rag := by
  unfold prepare_results
  rw [h]

/-! ### Boundedness of the multi-document chunk selector -/

lemma foldl_append_eq_bind {γ δ : Type} (f : γ → List δ) (l : List γ) (acc : List δ) :
    l.foldl (fun a g => a ++ f g) acc = acc ++ l.flatMap f := by
  induction l generalizing acc with
  | nil => simp
  | cons x xs ih => simp [ih]

lemma selectedChunks_eq_bind (sorted_docs : List (String × List (ℚ × ChunkId))) :
    selectedChunks sorted_docs =
      (sorted_docs.take 5).flatMap (fun g => (g.2.insertionSort chunkGe).take 5) := by
  unfold selectedChunks
  rw [foldl_append_eq_bind]
  simp

lemma countP_selected_le (gs : List (String × List (ℚ × ChunkId))) (d : String)
    (hnodup : (gs.map Prod.fst).Nodup)
    (hinv : ∀ g ∈ gs, ∀ p ∈ g.2, p.2.docId = g.1) :
    (gs.flatMap (fun g => (g.2.insertionSort chunkGe).take 5)).countP
        (fun p => decide (p.2.docId = d)) ≤ 5 := by
  induction gs with
  | nil => simp
  | cons g rest ih =>
      have hnodup' : (rest.map Prod.fst).Nodup := (List.nodup_cons.mp hnodup).2
      have hginv : ∀ p ∈ (g.2.insertionSort chunkGe).take 5, p.2.docId = g.1 :=
        fun p hp =>
          hinv g (by simp) p ((List.mem_insertionSort _).mp (List.take_subset _ _ hp))
      have hrest : ∀ p ∈ rest.flatMap (fun g' => (g'.2.insertionSort chunkGe).take 5),
          ∃ g' ∈ rest, p.2.docId = g'.1 := by
        intro p hp
        obtain ⟨g', hg', hpg'⟩ := List.mem_flatMap.mp hp
        exact ⟨g', hg',
          hinv g' (by simp [hg']) p
            ((List.mem_insertionSort _).mp (List.take_subset _ _ hpg'))⟩
      rw [List.flatMap_cons, List.countP_append]
      by_cases hd : g.1 = d
      · have h1 : ((g.2.insertionSort chunkGe).take 5).countP
            (fun p => decide (p.2.docId = d)) ≤ 5 :=
          le_trans (List.countP_le_length _) (List.length_take_le _ _)
        have h2 : (rest.flatMap (fun g' => (g'.2.insertionSort chunkGe).take 5)).countP
            (fun p => decide (p.2.docId = d)) = 0 := by
          rw [List.countP_eq_zero]
          intro p hp
          obtain ⟨g', hg', hpd⟩ := hrest p hp
          have hne : g'.1 ≠ g.1 := by
            intro he
            exact (List.nodup_cons.mp hnodup).1 (he ▸ List.mem_map_of_mem Prod.fst hg')
          simp only [decide_eq_true_eq]
          rw [hpd, ← hd]
          exact hne
        omega
      · have h1 : ((g.2.insertionSort chunkGe).take 5).countP
            (fun p => decide (p.2.docId = d)) = 0 := by
          rw [List.countP_eq_zero]
          intro p hp
          simp only [decide_eq_true_eq]
          rw [hginv p hp]
          exact hd
        have h2 := ih hnodup' (fun g' hg' => hinv g' (by simp [hg']))
        omega

lemma nodup_subset_length_le {α : Type} [DecidableEq α] {l l' : List α}
    (h : l.Nodup) (hs : ∀ x ∈ l, x ∈ l') : l.length ≤ l'.length :=
  calc l.length = l.toFinset.card := (List.toFinset_card_of_nodup h).symm
    _ ≤ l'.toFinset.card :=
        Finset.card_le_card
          (fun x hx => List.mem_toFinset.mpr (hs x (List.mem_toFinset.mp hx)))
    _ ≤ l'.length := List.toFinset_card_le l'

lemma gatherMulti_bounds (final_ranking : List (ChunkId × ℚ)) :
    (gatherMulti final_ranking).length ≤ 5 ∧
      ∀ d, (chunksAt (gatherMulti final_ranking) d).length ≤ 5 := by
  have hGB_nodup : ((groupByDoc final_ranking).map Prod.fst).Nodup :=
    foldl_dictAppend_keys_nodup (fun p : ChunkId × ℚ => p.1.docId)
      (fun p : ChunkId × ℚ => (p.2, p.1)) final_ranking [] (by simp)
  have hGB_inv : ∀ g ∈ groupByDoc final_ranking, ∀ p ∈ g.2, p.2.docId = g.1 :=
    foldl_dictAppend_val_inv (fun p : ChunkId × ℚ => p.1.docId)
      (fun p : ChunkId × ℚ => (p.2, p.1)) final_ranking [] (by simp)
      (fun x _ => rfl)
  have hperm : List.Perm (((groupByDoc final_ranking).insertionSort docGe).map Prod.fst)
      ((groupByDoc final_ranking).map Prod.fst) :=
    (List.perm_insertionSort docGe (groupByDoc final_ranking)).map Prod.fst
  have hS_nodup : (((groupByDoc final_ranking).insertionSort docGe).map Prod.fst).Nodup :=
    hperm.nodup_iff.mpr hGB_nodup
  have hS_inv : ∀ g ∈ (groupByDoc final_ranking).insertionSort docGe,
      ∀ p ∈ g.2, p.2.docId = g.1 :=
    fun g hg => hGB_inv g ((List.mem_insertionSort _).mp hg)
  have h5_nodup :
      ((((groupByDoc final_ranking).insertionSort docGe).take 5).map Prod.fst).Nodup := by
    rw [List.map_take]
    exact hS_nodup.sublist (List.take_sublist _ _)
  have h5_inv : ∀ g ∈ ((groupByDoc final_ranking).insertionSort docGe).take 5,
      ∀ p ∈ g.2, p.2.docId = g.1 :=
    fun g hg => hS_inv g (List.take_subset _ _ hg)
  have hsel : selectedChunks ((groupByDoc final_ranking).insertionSort docGe) =
      (((groupByDoc final_ranking).insertionSort docGe).take 5).flatMap
        (fun g => (g.2.insertionSort chunkGe).take 5) := selectedChunks_eq_bind _
  constructor
  · -- at most 5 document keys
    have hkeys_nodup : ((gatherMulti final_ranking).map Prod.fst).Nodup :=
      foldl_dictAppend_keys_nodup (fun p : ℚ × ChunkId => p.2.docId)
        (fun p : ℚ × ChunkId => mkChunkRecord p.2) _ [] (by simp)
    have hsub : ∀ k ∈ (gatherMulti final_ranking).map Prod.fst,
        k ∈ ((((groupByDoc final_ranking).insertionSort docGe).take 5).map Prod.fst) := by
      intro k hk
      rcases foldl_dictAppend_keys_subset (fun p : ℚ × ChunkId => p.2.docId)
          (fun p : ℚ × ChunkId => mkChunkRecord p.2)
          (selectedChunks ((groupByDoc final_ranking).insertionSort docGe)) [] k hk with
        h | h
      · simp at h
      · obtain ⟨p, hp, rfl⟩ := List.mem_map.mp h
        rw [hsel] at hp
        obtain ⟨g, hg, hpg⟩ := List.mem_flatMap.mp hp
        rw [h5_inv g hg p ((List.mem_insertionSort _).mp (List.take_subset _ _ hpg))]
        exact List.mem_map_of_mem Prod.fst hg
    calc (gatherMulti final_ranking).length
        = ((gatherMulti final_ranking).map Prod.fst).length := (List.length_map _ _).symm
      _ ≤ ((((groupByDoc final_ranking).insertionSort docGe).take 5).map Prod.fst).length :=
          nodup_subset_length_le hkeys_nodup hsub
      _ ≤ 5 := by
          rw [List.length_map]
          exact List.length_take_le _ _
  · -- at most 5 chunks per document
    intro d
    have hlen : (chunksAt (gatherMulti final_ranking) d).length =
        (selectedChunks ((groupByDoc final_ranking).insertionSort docGe)).countP
          (fun p => decide (p.2.docId = d)) := by
      have h := foldl_dictAppend_get_length (fun p : ℚ × ChunkId => p.2.docId)
        (fun p : ℚ × ChunkId => mkChunkRecord p.2)
        (selectedChunks ((groupByDoc final_ranking).insertionSort docGe)) [] d
      simpa [gatherMulti, buildDocMap, chunksAt, dictGet] using h
    rw [hlen, hsel]
    exact countP_selected_le _ d h5_nodup h5_inv

/-! ### Concrete fixtures used by witnesses and counterexamples -/

/-- A concrete chunk identity of document `doc123`. -/
def c0 : ChunkId :=
  { docId := "doc123", text := "chunk body", textAnonymized := "chunk anon" }

/-- A concrete collaborator environment: one chunk ranked 1 by both
methods, a retriever that only knows `doc123`, and a 100-token tokenizer. -/
def env0 : Env :=
  { embed := fun _ => [1]
    vectorRanksOf := fun _ => [(c0, 1)]
    fullTextRanksOf := fun _ => [(c0, 1)]
    retrieve := fun i =>
      if i = "doc123" then some { id := "doc123", text := "full text of doc123" } else none
    tokenLen := fun _ => 100 }

/-! ### Claim theorems -/

/-- C2: every (chunk, score) pair of the fused ranking satisfies
`score = 1/(rrf_k + rank_vector) + 1/(rrf_k + rank_fulltext)`, a rank
missing from one map contributing `0` to its term; and with a single chunk
ranked 1 by both methods and `rrf_k = 50` (single-document mode) the fused
ranking is exactly that chunk with score `2/51`. -/
theorem C2_rrf_score_formula :
    (∀ (rrf_k : Nat) (vector_ranks full_text_ranks : RankMap) (c : ChunkId) (s : ℚ),
        (c, s) ∈ fuse rrf_k vector_ranks full_text_ranks →
          s = rrfTerm rrf_k (lookupRank vector_ranks c) +
              rrfTerm rrf_k (lookupRank full_text_ranks c)) ∧
    fuse 50 [(c0, 1)] [(c0, 1)] = [(c0, 2 / 51)] := by
  constructor
  · intro k vr fr c s hmem
    have h1 : (c, s) ∈ (allChunkIds vr fr).map (fun c' => (c', rrfScore k vr fr c')) :=
      (List.mem_insertionSort _).mp hmem
    obtain ⟨c', _, heq⟩ := List.mem_map.mp h1
    injection heq with h2 h3
    subst h2
    rw [← h3]
    rfl
  · with_unfolding_all rfl

/-- C2 witness: the general part of `C2_rrf_score_formula`, applied to the
concrete single-chunk scenario with both ranks 1 and `rrf_k = 50`. -/
theorem C2_rrf_score_formula_witness :
    (2 / 51 : ℚ) = rrfTerm 50 (lookupRank [(c0, 1)] c0) +
      rrfTerm 50 (lookupRank [(c0, 1)] c0) := by
  apply C2_rrf_score_formula.1 50 [(c0, 1)] [(c0, 1)] c0 (2 / 51)
  rw [C2_rrf_score_formula.2]
  exact List.mem_singleton.mpr rfl

/-- C3: in multi-document mode (the number of supplied filter ids is not
exactly one) the document-chunk map built by the chunk selector has at most
5 keys, and the chunk list stored under any document id has at most 5
entries, for every environment and input size. -/
theorem C3_multi_mode_bounded (env : Env) (query retrieval_method : String)
    (filter_ids : Option (List String)) (collection_id : Option String)
    (h : numFilter filter_ids ≠ 1) :
    (docMapOf env query retrieval_method filter_ids collection_id).length ≤ 5 ∧
      ∀ d, (chunksAt (docMapOf env query retrieval_method filter_ids collection_id)
        d).length ≤ 5 := by
  have hsm : singleMode filter_ids = false := (singleMode_eq_false_iff _).mpr h
  unfold docMapOf
  rw [hsm]
  simp only [Bool.false_eq_true, if_false]
  exact gatherMulti_bounds _

/-- C3 witness: the bound instantiated at the concrete environment `env0`
with no filter ids (multi-document mode). -/
theorem C3_multi_mode_bounded_witness :
    (docMapOf env0 "What is the verdict?" "full" none none).length ≤ 5 ∧
      (chunksAt (docMapOf env0 "What is the verdict?" "full" none none)
        "doc123").length ≤ 5 :=
  ⟨(C3_multi_mode_bounded env0 "What is the verdict?" "full" none none (by decide)).1,
   (C3_multi_mode_bounded env0 "What is the verdict?" "full" none none (by decide)).2
      "doc123"⟩

/-- C4: with exactly one supplied filter id the request uses
`knn_k = 50`, `chunks_to_gather = 40`, `inner_hits_size = 50` and
`rrf_k = 50` (the `searchParams` triple is `(knn_k, chunks_to_gather,
inner_hits_size)` in source order, lines 124-126); with any other number of
filter ids it uses `knn_k = 25`, `chunks_to_gather = 25`,
`inner_hits_size = 30` and `rrf_k = 30`. -/
theorem C4_adaptive_parameters (filter_ids : Option (List String)) :
    (numFilter filter_ids = 1 →
        searchParams filter_ids = (50, 40, 50) ∧ rrfK filter_ids = 50) ∧
    (numFilter filter_ids ≠ 1 →
        searchParams filter_ids = (25, 25, 30) ∧ rrfK filter_ids = 30) := by
  constructor
  · intro h
    have hsm := (singleMode_eq_true_iff _).mpr h
    simp [searchParams, rrfK, hsm]
  · intro h
    have hsm := (singleMode_eq_false_iff _).mpr h
    simp [searchParams, rrfK, hsm]

/-- C4 witness: the parameter selection evaluated at one filter id and at
no filter ids. -/
theorem C4_adaptive_parameters_witness :
    (searchParams (some ["doc123"]) = (50, 40, 50) ∧ rrfK (some ["doc123"]) = 50) ∧
    (searchParams none = (25, 25, 30) ∧ rrfK none = 30) :=
  ⟨(C4_adaptive_parameters (some ["doc123"])).1 (by decide),
   (C4_adaptive_parameters none).2 (by decide)⟩

/-- C6: with the force flag set, `_prepare_results` returns exactly one
chunk-based record per retrieved document, each with `full_docs = false`
and that document's selected chunk list — for every tokenizer, query,
filter list and token count, so no later policy check can intervene. -/
theorem C6_force_rag_override (tokenLen : String → Nat) (full_docs : List Doc)
    (doc_chunks_id_map : DocMap) (query : String) (filter_ids : Option (List String)) :
    prepare_results tokenLen full_docs doc_chunks_id_map query filter_ids true =
      full_docs.map (chunkResult doc_chunks_id_map) := by
  unfold prepare_results
  simp

lemma fuse_nil (rrf_k : Nat) : fuse rrf_k [] [] = [] := rfl

/-- C7: for a retrieval method that is none of `full`, `dense`,
`full-text`, `hibrid_no_ner`, neither search query is consulted, both rank
maps are empty, the fused ranking is empty, and `search` returns the empty
list (no error is raised: the function is total). -/
theorem C7_unknown_method_empty (env : Env) (query retrieval_method : String)
    (filter_ids : Option (List String)) (collection_id : Option String)
    (force_rag : Bool)
    (h : retrieval_method ∉ ["full", "dense", "full-text", "hibrid_no_ner"]) :
    vectorRanksUsed env query retrieval_method filter_ids collection_id = [] ∧
    fullTextRanksUsed env query retrieval_method filter_ids collection_id = [] ∧
    fusedRankingOf env query retrieval_method filter_ids collection_id = [] ∧
    search env query retrieval_method filter_ids collection_id force_rag = [] := by
  simp only [List.mem_cons, List.not_mem_nil, or_false, not_or] at h
  obtain ⟨h1, h2, h3, h4⟩ := h
  have hv : retrieval_method ∉ vector_methods := by
    simp [vector_methods, h1, h2, h4]
  have hf : retrieval_method ∉ fulltext_methods := by
    simp [fulltext_methods, h1, h3, h4]
  have hvr : vectorRanksUsed env query retrieval_method filter_ids collection_id = [] := by
    unfold vectorRanksUsed
    rw [if_neg hv]
  have hfr : fullTextRanksUsed env query retrieval_method filter_ids collection_id = [] := by
    unfold fullTextRanksUsed
    rw [if_neg hf]
  have hfu : fusedRankingOf env query retrieval_method filter_ids collection_id = [] := by
    unfold fusedRankingOf
    rw [hvr, hfr, fuse_nil]
  refine ⟨hvr, hfr, hfu, ?_⟩
  unfold search
  have hmap : docMapOf env query retrieval_method filter_ids collection_id = [] := by
    unfold docMapOf
    rw [hfu]
    split <;> simp [gatherSingle, gatherMulti, selectedChunks, buildDocMap, groupByDoc]
  rw [hmap]
  exact prepare_results_nil _ _ _ _ _

/-- C7 witness: the degenerate path evaluated at the unrecognized method
`bm25` on the concrete environment `env0`. -/
theorem C7_unknown_method_empty_witness :
    search env0 "What is the verdict?" "bm25" none none false = [] :=
  (C7_unknown_method_empty env0 "What is the verdict?" "bm25" none none false
    (by decide)).2.2.2

/-- C1 counterexample: a request with no force flag, exactly one target
document id, the retriever returning that document, and a token count of
100 < 18000.  The claim says the search operation returns the document's
full text as a single pseudo-chunk with `full_docs = true`; the code
instead returns the selected chunk list (`text = "chunk body"`, not the
document text) with `full_docs = false`. -/
theorem C1_counterexample :
    env0.tokenLen "full text of doc123" < 18000 ∧
    search env0 "What is the verdict?" "full" (some ["doc123"]) none false =
      [{ doc := { id := "doc123", text := "full text of doc123" }
         chunks := [mkChunkRecord c0]
         full_docs := false }] ∧
    (search env0 "What is the verdict?" "full" (some ["doc123"]) none
        false).map ResultRecord.full_docs ≠ [true] := by
  refine ⟨by decide, by with_unfolding_all rfl, ?_⟩
  intro hcontra
  rw [show (search env0 "What is the verdict?" "full" (some ["doc123"]) none
        false).map ResultRecord.full_docs = [false] from by with_unfolding_all rfl]
      at hcontra
  simp at hcontra

/-- C1 amended: for every request in which no force flag is set, exactly
one target document id was supplied, the retriever returns a first document
`d0`, and `d0`'s token count is below 18000, the search operation returns a
single record holding `d0` with its already-selected chunk list and
`full_docs = false` (not the full text, and not `full_docs = true`). -/
theorem C1_single_short_doc_amended (env : Env) (query retrieval_method : String)
    (filter_ids : Option (List String)) (collection_id : Option String)
    (d0 : Doc) (rest : List Doc)
    (hsingle : numFilter filter_ids = 1)
    (hret : retrieveDocs env.retrieve
        ((docMapOf env query retrieval_method filter_ids collection_id).map Prod.fst) =
        d0 :: rest)
    (htok : env.tokenLen d0.text < 18000) :
    search env query retrieval_method filter_ids collection_id false =
      [{ doc := d0
         chunks := chunksAt (docMapOf env query retrieval_method filter_ids collection_id)
           d0.id
         full_docs := false }] := by
  have hsm : singleMode filter_ids = true := (singleMode_eq_true_iff _).mpr hsingle
  unfold search
  rw [hret]
  unfold prepare_results
  rw [hsm]
  simp [htok, chunkResult]

/-- C1 amended witness: the amended behaviour evaluated on the concrete
environment `env0` with target `doc123`. -/
theorem C1_single_short_doc_amended_witness :
    search env0 "What is the verdict?" "full" (some ["doc123"]) none false =
      [{ doc := { id := "doc123", text := "full text of doc123" }
         chunks := chunksAt (docMapOf env0 "What is the verdict?" "full"
           (some ["doc123"]) none) "doc123"
         full_docs := false }] :=
  C1_single_short_doc_amended env0 "What is the verdict?" "full" (some ["doc123"]) none
    { id := "doc123", text := "full text of doc123" } [] (by decide)
    (by with_unfolding_all rfl) (by decide)

/-- C5: in `_prepare_results`, once the force branch and the single-target
short-document branch are not taken, a query containing a trigger keyword
(case-insensitive) yields whole-document pseudo-chunk records with
`full_docs = true` when the token counts of all retrieved documents sum to
at most 18000, and the selected chunk lists with `full_docs = false` when
the sum exceeds 18000. -/
theorem C5_keyword_token_budget (tokenLen : String → Nat) (full_docs : List Doc)
    (doc_chunks_id_map : DocMap) (query : String) (filter_ids : Option (List String))
    (hkw : containsKeyword query = true)
    (hnoshort : ∀ d0 rest, full_docs = d0 :: rest → singleMode filter_ids = true →
        ¬ tokenLen d0.text < 18000) :
    ((full_docs.map (fun d => tokenLen d.text)).sum ≤ 18000 →
        prepare_results tokenLen full_docs doc_chunks_id_map query filter_ids false =
          full_docs.map
            (fun d => { doc := d, chunks := [pseudoChunk d], full_docs := true })) ∧
    (18000 < (full_docs.map (fun d => tokenLen d.text)).sum →
        prepare_results tokenLen full_docs doc_chunks_id_map query filter_ids false =
          full_docs.map (chunkResult doc_chunks_id_map)) := by
  have htail : prepare_results tokenLen full_docs doc_chunks_id_map query filter_ids
      false = prepareTail tokenLen full_docs doc_chunks_id_map (containsKeyword query) := by
    unfold prepare_results
    cases hfd : full_docs with
    | nil => cases hsm : singleMode filter_ids <;> simp
    | cons d0 rest =>
        cases hsm : singleMode filter_ids
        · simp
        · simp only [Bool.false_eq_true, if_false]
          rw [if_neg (hnoshort d0 rest hfd hsm)]
  rw [htail]
  unfold prepareTail
  rw [hkw]
  constructor
  · intro hsum
    simp [hsum]
  · intro hsum
    have hns : ¬ (full_docs.map (fun d => tokenLen d.text)).sum ≤ 18000 := by omega
    simp [hns]

/-- C5 witness: two documents of 9000 tokens each (sum 18000) yield
whole-document records, and two documents of 9000 and 9001 tokens
(sum 18001) yield chunk-based records, under the trigger query
`Riassumi`. -/
theorem C5_keyword_token_budget_witness :
    prepare_results (fun _ => 9000)
        [{ id := "a", text := "A" }, { id := "b", text := "B" }] [] "Riassumi" none
        false =
      [{ doc := { id := "a", text := "A" },
         chunks := [pseudoChunk { id := "a", text := "A" }], full_docs := true },
       { doc := { id := "b", text := "B" },
         chunks := [pseudoChunk { id := "b", text := "B" }], full_docs := true }] ∧
    prepare_results (fun s => if s = "A" then 9000 else 9001)
        [{ id := "a", text := "A" }, { id := "b", text := "B" }] [] "Riassumi" none
        false =
      [chunkResult [] { id := "a", text := "A" },
       chunkResult [] { id := "b", text := "B" }] := by
  constructor
  · exact (C5_keyword_token_budget (fun _ => 9000)
      [{ id := "a", text := "A" }, { id := "b", text := "B" }] [] "Riassumi" none
      (by decide) (fun d0 rest _ hsm => absurd hsm (by decide))).1 (by decide)
  · exact (C5_keyword_token_budget (fun s => if s = "A" then 9000 else 9001)
      [{ id := "a", text := "A" }, { id := "b", text := "B" }] [] "Riassumi" none
      (by decide) (fun d0 rest _ hsm => absurd hsm (by decide))).2 (by decide)

/-- C9: the retrieval loop keeps exactly the documents whose retriever call
succeeds (its length is the count of successful ids); outside
single-document mode the assembled result has one record per retrieved
document (so 3 ids with 1 failure yield exactly 2 records); when every
retriever call fails `_prepare_results` receives the empty list and returns
`[]`, and a whole `search` request with an always-failing retriever returns
`[]` rather than an error. -/
theorem C9_retriever_failures (retrieve : String → Option Doc) (doc_ids : List String)
    (tokenLen : String → Nat) (doc_chunks_id_map : DocMap) (query : String)
    (filter_ids : Option (List String)) (force_rag : Bool) :
    (retrieveDocs retrieve doc_ids).length =
        doc_ids.countP (fun i => (retrieve i).isSome) ∧
    (numFilter filter_ids ≠ 1 →
        (prepare_results tokenLen (retrieveDocs retrieve doc_ids) doc_chunks_id_map
            query filter_ids force_rag).length =
          (retrieveDocs retrieve doc_ids).length) ∧
    ((∀ i ∈ doc_ids, retrieve i = none) →
        prepare_results tokenLen (retrieveDocs retrieve doc_ids) doc_chunks_id_map
          query filter_ids force_rag = []) ∧
    (∀ (env : Env) (q m : String) (cid : Option String),
        (∀ i, env.retrieve i = none) →
        search env q m filter_ids cid force_rag = []) := by
  refine ⟨?_, ?_, ?_, ?_⟩
  · exact List.length_filterMap_eq_countP retrieve doc_ids
  · intro h
    exact prepare_results_length_not_single _ _ _ _ _ _ ((singleMode_eq_false_iff _).mpr h)
  · intro h
    rw [show retrieveDocs retrieve doc_ids = [] from List.filterMap_eq_nil.mpr h]
    exact prepare_results_nil _ _ _ _ _
  · intro env q m cid h
    unfold search
    rw [show retrieveDocs env.retrieve
        ((docMapOf env q m filter_ids cid).map Prod.fst) = [] from
      List.filterMap_eq_nil.mpr (fun i _ => h i)]
    exact prepare_results_nil _ _ _ _ _

/-- A retriever that fails exactly on document id `b`. -/
def retrieve3 : String → Option Doc := fun i =>
  if i = "b" then none else some { id := i, text := i }

/-- An environment whose retriever fails on every document id. -/
def envFail : Env :=
  { embed := fun _ => []
    vectorRanksOf := fun _ => []
    fullTextRanksOf := fun _ => []
    retrieve := fun _ => none
    tokenLen := fun _ => 0 }

/-- C9 witness: 3 document ids with 1 retriever failure yield 2 retrieved
documents and exactly 2 result records, and an always-failing retriever
yields the empty result list. -/
theorem C9_retriever_failures_witness :
    (retrieveDocs retrieve3 ["a", "b", "c"]).length = 2 ∧
    (prepare_results (fun _ => 0) (retrieveDocs retrieve3 ["a", "b", "c"]) [] "q" none
        false).length = 2 ∧
    search envFail "q" "full" none none false = [] := by
  refine ⟨?_, ?_, ?_⟩
  · rw [(C9_retriever_failures retrieve3 ["a", "b", "c"] (fun _ => 0) [] "q" none
        false).1]
    decide
  · rw [(C9_retriever_failures retrieve3 ["a", "b", "c"] (fun _ => 0) [] "q" none
        false).2.1 (by decide)]
    decide
  · exact (C9_retriever_failures envFail.retrieve [] (fun _ => 0) [] "q" none
      false).2.2.2 envFail "q" "full" none (fun i => rfl)

/-- C10: supplying the public API's default empty `filter_ids` list is
equivalent to supplying no filter ids at all: same (multi-document) mode,
same adaptive parameters and RRF constant, the same global query bodies
from `_build_queries`, and the same `search` result. -/
theorem C10_empty_filter_ids (env : Env) (query retrieval_method : String)
    (collection_id : Option String) (force_rag : Bool) (embeddings : List ℚ)
    (knn_k inner_hits_size : Nat) :
    singleMode (some ([] : List String)) = singleMode none ∧
    searchParams (some ([] : List String)) = searchParams none ∧
    searchParams none = (25, 25, 30) ∧
    rrfK (some ([] : List String)) = rrfK none ∧ rrfK none = 30 ∧
    isFiltered (some ([] : List String)) = false ∧
    build_queries query embeddings retrieval_method (some []) collection_id knn_k
        inner_hits_size =
      build_queries query embeddings retrieval_method none collection_id knn_k
        inner_hits_size ∧
    search env query retrieval_method (some []) collection_id force_rag =
      search env query retrieval_method none collection_id force_rag := by
  refine ⟨rfl, rfl, rfl, rfl, rfl, rfl, rfl, ?_⟩
  unfold search
  rw [show docMapOf env query retrieval_method (some ([] : List String)) collection_id =
      docMapOf env query retrieval_method none collection_id from rfl]
  exact prepare_results_filter_congr _ _ _ _ _ _ _ rfl

lemma fuse_mem_keys (rrf_k : Nat) (vector_ranks full_text_ranks : RankMap)
    (c : ChunkId) :
    c ∈ (fuse rrf_k vector_ranks full_text_ranks).map Prod.fst ↔
      c ∈ vector_ranks.map Prod.fst ∨ c ∈ full_text_ranks.map Prod.fst := by
  have hperm : List.Perm
      ((fuse rrf_k vector_ranks full_text_ranks).map Prod.fst)
      (((allChunkIds vector_ranks full_text_ranks).map
          (fun c' => (c', rrfScore rrf_k vector_ranks full_text_ranks c'))).map
        Prod.fst) :=
    (List.perm_insertionSort scoreGe _).map Prod.fst
  rw [hperm.mem_iff, List.map_map]
  have hid : (Prod.fst ∘ fun c' => (c', rrfScore rrf_k vector_ranks full_text_ranks c'))
      = id := rfl
  rw [hid, List.map_id]
  unfold allChunkIds
  rw [List.mem_dedup, List.mem_append]

lemma fuse_length_eq_card_union (rrf_k : Nat) (vector_ranks full_text_ranks : RankMap) :
    (fuse rrf_k vector_ranks full_text_ranks).length =
      ((vector_ranks.map Prod.fst).toFinset ∪
        (full_text_ranks.map Prod.fst).toFinset).card := by
  have h1 : (fuse rrf_k vector_ranks full_text_ranks).length =
      (allChunkIds vector_ranks full_text_ranks).length := by
    rw [fuse, List.length_insertionSort, List.length_map]
  have h2 : ((vector_ranks.map Prod.fst ++ full_text_ranks.map Prod.fst).dedup).toFinset
      = (vector_ranks.map Prod.fst ++ full_text_ranks.map Prod.fst).toFinset := by
    ext x
    simp [List.mem_toFinset, List.mem_dedup]
  rw [h1]
  unfold allChunkIds
  rw [← List.toFinset_append,
    ← List.toFinset_card_of_nodup
      (List.nodup_dedup (vector_ranks.map Prod.fst ++ full_text_ranks.map Prod.fst)),
    h2]

/-- Every chunk record held by the doc-chunk map of a request is the
record of some chunk identity of that request's fused ranking. -/
lemma docMapOf_chunk_origin (env : Env) (query retrieval_method : String)
    (filter_ids : Option (List String)) (collection_id : Option String)
    (d : String) (r : ChunkRecord)
    (hr : r ∈ chunksAt (docMapOf env query retrieval_method filter_ids collection_id) d) :
    ∃ c : ChunkId,
      c ∈ (fusedRankingOf env query retrieval_method filter_ids
          collection_id).map Prod.fst ∧ r = mkChunkRecord c := by
  unfold docMapOf at hr
  by_cases hsm : singleMode filter_ids = true
  · rw [if_pos hsm] at hr
    rcases foldl_dictAppend_get_mem (fun p : ChunkId × ℚ => p.1.docId)
        (fun p : ChunkId × ℚ => mkChunkRecord p.1) _ [] d r hr with h | h
    · simp [dictGet] at h
    · obtain ⟨p, hp, rfl⟩ := h
      exact ⟨p.1,
        List.mem_map_of_mem Prod.fst (List.take_subset _ _ hp), rfl⟩
  · rw [if_neg hsm] at hr
    unfold gatherMulti buildDocMap at hr
    rcases foldl_dictAppend_get_mem (fun p : ℚ × ChunkId => p.2.docId)
        (fun p : ℚ × ChunkId => mkChunkRecord p.2) _ [] d r hr with h | h
    · simp [dictGet] at h
    · obtain ⟨p, hp, rfl⟩ := h
      rw [selectedChunks_eq_bind] at hp
      obtain ⟨g, hg, hpg⟩ := List.mem_flatMap.mp hp
      have hgmem : g ∈ groupByDoc (fusedRankingOf env query retrieval_method
          filter_ids collection_id) :=
        (List.mem_insertionSort _).mp (List.take_subset _ _ hg)
      have hpg2 : p ∈ g.2 :=
        (List.mem_insertionSort _).mp (List.take_subset _ _ hpg)
      have horigin := @foldl_dictAppend_val_inv String (ℚ × ChunkId) _ (ChunkId × ℚ)
        (fun b _ => ∃ q ∈ fusedRankingOf env query retrieval_method filter_ids
            collection_id, b = (q.2, q.1))
        (fun p' => p'.1.docId) (fun p' => (p'.2, p'.1))
        (fusedRankingOf env query retrieval_method filter_ids collection_id) []
        (by simp) (fun x hx => ⟨x, hx, rfl⟩)
      obtain ⟨q, hq, hpq⟩ := horigin g hgmem p hpg2
      refine ⟨q.1, List.mem_map_of_mem Prod.fst hq, ?_⟩
      rw [hpq]

/-- C8: a chunk identity appears in the fused ranking exactly when it
appears in the vector rank map or the full-text rank map (no identity
fabricated or dropped); the fused ranking's size never exceeds the
cardinality of the union of the two key sets; and every chunk record
selected into a request's doc-chunk map is the record of a chunk identity
originating from at least one of that request's two rank maps. -/
theorem C8_union_coverage :
    (∀ (rrf_k : Nat) (vector_ranks full_text_ranks : RankMap) (c : ChunkId),
        c ∈ (fuse rrf_k vector_ranks full_text_ranks).map Prod.fst ↔
          c ∈ vector_ranks.map Prod.fst ∨ c ∈ full_text_ranks.map Prod.fst) ∧
    (∀ (rrf_k : Nat) (vector_ranks full_text_ranks : RankMap),
        (fuse rrf_k vector_ranks full_text_ranks).length ≤
          ((vector_ranks.map Prod.fst).toFinset ∪
            (full_text_ranks.map Prod.fst).toFinset).card) ∧
    (∀ (env : Env) (query retrieval_method : String)
        (filter_ids : Option (List String)) (collection_id : Option String)
        (d : String) (r : ChunkRecord),
        r ∈ chunksAt (docMapOf env query retrieval_method filter_ids collection_id) d →
          ∃ c : ChunkId,
            (c ∈ (vectorRanksUsed env query retrieval_method filter_ids
                collection_id).map Prod.fst ∨
             c ∈ (fullTextRanksUsed env query retrieval_method filter_ids
                collection_id).map Prod.fst) ∧
            r = mkChunkRecord c) := by
  refine ⟨fuse_mem_keys, ?_, ?_⟩
  · intro rrf_k vector_ranks full_text_ranks
    exact le_of_eq (fuse_length_eq_card_union rrf_k vector_ranks full_text_ranks)
  · intro env query retrieval_method filter_ids collection_id d r hr
    obtain ⟨c, hc, hrc⟩ :=
      docMapOf_chunk_origin env query retrieval_method filter_ids collection_id d r hr
    refine ⟨c, ?_, hrc⟩
    rw [fusedRankingOf] at hc
    exact (fuse_mem_keys _ _ _ c).mp hc

/-- C8 witness: the origin clause applied at the concrete environment
`env0`, whose doc-chunk map holds exactly the record of chunk `c0`. -/
theorem C8_union_coverage_witness :
    ∃ c : ChunkId,
      (c ∈ (vectorRanksUsed env0 "What is the verdict?" "full" none none).map
          Prod.fst ∨
       c ∈ (fullTextRanksUsed env0 "What is the verdict?" "full" none none).map
          Prod.fst) ∧
      mkChunkRecord c0 = mkChunkRecord c :=
  C8_union_coverage.2.2 env0 "What is the verdict?" "full" none none "doc123"
    (mkChunkRecord c0)
    (by
      rw [show chunksAt (docMapOf env0 "What is the verdict?" "full" none none)
          "doc123" = [mkChunkRecord c0] from by with_unfolding_all rfl]
      exact List.mem_singleton.mpr rfl)

end DAVE
